import Mathlib

/-!
# Todo list store (src/src/App.js)

A shallow embedding of the state container of `src/src/App.js`: the action
creators, `initialState`, `todoReducer` and the `ReduxStore` class, followed by
theorems about them.

Modelling conventions.
* A task id is the value of `Date.now()`, a non-negative integer number of
  milliseconds: `Nat`.  `===` and `!==` on ids are `==` and `!=` on `Nat`.
* An action is the tagged object `{ type, payload }`.  The five shapes built by
  the action creators are the first five constructors of `Action`; an object
  whose `type` is any other string is `Action.other`.
* A listener is a JavaScript function compared by reference (`l !== listener`);
  it is represented by its reference, a `Nat`.  Calling a listener that only
  reads the store is recorded in `World.calls` together with the state that
  `getState()` returns at that moment.
* A listener whose body itself uses the store (dispatches, subscribes or calls
  an unsubscribe function) is described by `Bodies`; `dispatchWith` is
  `dispatch` for such listeners, and with bodies that only read the store it is
  `ReduxStore.dispatch`.
* The default argument `state = initialState` of the reducer applies only to a
  call with an undefined state, which the store never makes: the model takes
  the state as given.
-/

namespace TodoRedux

/-! ## Action types -/

def ADD_TODO : String := "ADD_TODO"
def TOGGLE_TODO : String := "TOGGLE_TODO"
def DELETE_TODO : String := "DELETE_TODO"
def EDIT_TODO : String := "EDIT_TODO"
def SET_FILTER : String := "SET_FILTER"

/-- The five action types that `todoReducer` has a `case` for. -/
def knownTypes : List String :=
  [ADD_TODO, TOGGLE_TODO, DELETE_TODO, EDIT_TODO, SET_FILTER]

/-! ## Data model -/

/-- A task record `{ id, text, completed }`. -/
structure Todo where
  id : Nat
  text : String
  completed : Bool
deriving DecidableEq, Repr

/-- The application state `{ todos, filter }`. -/
structure State where
  todos : List Todo
  filter : String
deriving DecidableEq, Repr

/-- An action object `{ type, payload }`, by the shape of its payload. -/
inductive Action where
  /-- The object `{ type: ADD_TODO, payload: { id, text, completed } }`. -/
  | add (payload : Todo)
  /-- The object `{ type: TOGGLE_TODO, payload: id }`. -/
  | toggle (payload : Nat)
  /-- The object `{ type: DELETE_TODO, payload: id }`. -/
  | delete (payload : Nat)
  /-- The object `{ type: EDIT_TODO, payload: { id, text } }`. -/
  | edit (id : Nat) (text : String)
  /-- The object `{ type: SET_FILTER, payload: filter }`. -/
  | filter (payload : String)
  /-- An object whose `type` is none of the five action types. -/
  | other (type : String) (h : type ∉ knownTypes)

/-- The `type` field of an action. -/
def Action.type : Action → String
  | .add _ => ADD_TODO
  | .toggle _ => TOGGLE_TODO
  | .delete _ => DELETE_TODO
  | .edit _ _ => EDIT_TODO
  | .filter _ => SET_FILTER
  | .other ty _ => ty

/-! ## Action creators -/

/-- The creator `addTodo(text)`; `now` is the value `Date.now()` returns during the call. -/
def addTodo (now : Nat) (text : String) : Action :=
  .add { id := now, text := text, completed := false }

/-- The creator `toggleTodo(id)`. -/
def toggleTodo (id : Nat) : Action := .toggle id

/-- The creator `deleteTodo(id)`. -/
def deleteTodo (id : Nat) : Action := .delete id

/-- The creator `editTodo(id, text)`. -/
def editTodo (id : Nat) (text : String) : Action := .edit id text

/-- The creator `setFilter(filter)`. -/
def setFilter (filter : String) : Action := .filter filter

/-! ## Initial state and reducer -/

/-- The constant `initialState = { todos: [], filter: 'ALL' }`. -/
def initialState : State := { todos := [], filter := "ALL" }

/-- The reducer `todoReducer(state, action)`: the `switch` on `action.type`. -/
def todoReducer (state : State) (action : Action) : State :=
  match action with
  | .add payload =>
      { state with todos := state.todos ++ [payload] }
  | .toggle payload =>
      { state with
        todos := state.todos.map fun todo =>
          if todo.id == payload
          then { todo with completed := !todo.completed }
          else todo }
  | .delete payload =>
      { state with todos := state.todos.filter fun todo => todo.id != payload }
  | .edit id text =>
      { state with
        todos := state.todos.map fun todo =>
          if todo.id == id
          then { todo with text := text }
          else todo }
  | .filter payload =>
      { state with filter := payload }
  | .other _ _ => state

/-! ## Store -/

/-- A listener function, identified by reference. -/
abbrev Listener := Nat

/-- The fields of a `ReduxStore` object. -/
structure ReduxStore where
  reducer : State → Action → State
  state : State
  listeners : List Listener

/-- A store together with the record of listener calls made so far: each entry
is the listener called and the state `getState()` returned during that call. -/
structure World where
  store : ReduxStore
  calls : List (Listener × State)

namespace ReduxStore

/-- The constructor `constructor(reducer, initialState)`. -/
def new (reducer : State → Action → State) (initialState : State) : ReduxStore :=
  { reducer := reducer, state := initialState, listeners := [] }

/-- The method `getState()`. -/
def getState (self : ReduxStore) : State := self.state

/-- One call `listener()` of a listener that only reads the store. -/
def call (listener : Listener) (w : World) : World :=
  { w with calls := w.calls ++ [(listener, w.store.getState)] }

/-- The method `dispatch(action)`: assign the reduced state, then
`this.listeners.forEach(listener => listener())`. -/
def dispatch (w : World) (action : Action) : World :=
  let w1 : World :=
    { w with store := { w.store with state := w.store.reducer w.store.state action } }
  w1.store.listeners.foldl (fun acc listener => call listener acc) w1

/-- The method `subscribe(listener)`: push the listener and return the closure
`() => { this.listeners = this.listeners.filter(l => l !== listener) }`,
which acts on the store as it is when the closure is called. -/
def subscribe (w : World) (listener : Listener) : World × (World → World) :=
  ({ w with store := { w.store with listeners := w.store.listeners ++ [listener] } },
   fun w2 =>
     { w2 with
       store := { w2.store with
                  listeners := w2.store.listeners.filter fun l => l != listener } })

end ReduxStore

/-- The module-level `store = new ReduxStore(todoReducer, initialState)` before
any listener has been called. -/
def store : World := { store := ReduxStore.new todoReducer initialState, calls := [] }

/-- Dispatch a sequence of actions one after the other. -/
def dispatchAll (w : World) (actions : List Action) : World :=
  actions.foldl ReduxStore.dispatch w

/-- One use of the store by its client: a `dispatch`, a `subscribe`, or a call
of the function that a `subscribe` with the given listener returned. -/
inductive StoreOp where
  | dispatch (action : Action)
  | subscribe (listener : Listener)
  | unsubscribe (listener : Listener)

/-- The behaviour of the listener functions: the uses of the store that the
body of a listener makes when it is called, which may depend on the state it
reads through `getState()`. -/
abbrev Bodies := Listener → State → List StoreOp

/-- Perform one use of the store, a `dispatch` being carried out by `nested`. -/
def StoreOp.runWith (nested : World → Action → World) (w : World) : StoreOp → World
  | .dispatch action => nested w action
  | .subscribe listener => (ReduxStore.subscribe w listener).1
  | .unsubscribe listener => (ReduxStore.subscribe w listener).2 w

/-- One call `listener()` of a listener with a body: the call is recorded, then
the body makes its uses of the store, one after the other. -/
def callWith (nested : World → Action → World) (bodies : Bodies)
    (listener : Listener) (w : World) : World :=
  (bodies listener w.store.getState).foldl (StoreOp.runWith nested)
    (ReduxStore.call listener w)

/-- The method `dispatch(action)` when listeners have bodies.  The `forEach`
walks the array that `this.listeners` holds when it is entered: the closure
returned by `subscribe` assigns a new array to the field and leaves the walked
one as it is, and `push` appends beyond the range that `forEach` visits; so the
listeners called are those registered when the walk starts, whatever the bodies
do meanwhile.  `depth` is the room left on the call stack for `dispatch` calls
nested in listener bodies; with none left the call does nothing. -/
def dispatchWith (bodies : Bodies) : Nat → World → Action → World
  | 0, w, _ => w
  | depth + 1, w, action =>
      let w1 : World :=
        { w with store := { w.store with state := w.store.reducer w.store.state action } }
      w1.store.listeners.foldl
        (fun acc listener => callWith (dispatchWith bodies depth) bodies listener acc) w1

/-- Perform a sequence of uses of the store by its client, one after the other,
the listeners having the given bodies. -/
def runOpsWith (bodies : Bodies) (depth : Nat) (w : World) (ops : List StoreOp) : World :=
  ops.foldl (StoreOp.runWith (dispatchWith bodies depth)) w

/-- Listener bodies in which listener 10 calls the function returned by
`subscribe` for listener 20 and every other listener only reads the store. -/
def unsubscribingBodies : Bodies :=
  fun listener _ => if listener = 10 then [StoreOp.unsubscribe 20] else []

/-- Listener bodies that only read the store. -/
def readOnlyBodies : Bodies := fun _ _ => []

/-- From `w` to `w2` the record of calls was only extended, listener `o` was not
called, and `o` is not registered in `w2`. -/
def Quiet (o : Listener) (w w2 : World) : Prop :=
  o ∉ w2.store.listeners ∧ ∃ extra, w2.calls = w.calls ++ extra ∧ ∀ c ∈ extra, c.1 ≠ o

/-- From `w` to `w2` the record of calls was only extended. -/
def Grows (w w2 : World) : Prop := ∃ extra, w2.calls = w.calls ++ extra

/-- The module-level store after `subscribe` was called with listener 10 and
then with listener 20. -/
def exampleWorld : World :=
  (ReduxStore.subscribe (ReduxStore.subscribe store 10).1 20).1

/-- The module-level store after `subscribe` was called twice with the same
listener 7. -/
def twiceSubscribed : World :=
  (ReduxStore.subscribe (ReduxStore.subscribe store 7).1 7).1

/-- The function returned by the second of the two `subscribe` calls that lead
to `twiceSubscribed`. -/
def secondUnsubscribe : World → World :=
  (ReduxStore.subscribe (ReduxStore.subscribe store 7).1 7).2

/-- The listeners called since the record of calls had length `n`, in order. -/
def calledSince (n : Nat) (w : World) : List Listener :=
  (w.calls.drop n).map Prod.fst

/-- The store in the middle of `dispatch(addTodo(..))` on `exampleWorld` with the
bodies `unsubscribingBodies`, when the call of listener 10, the first one of the
walk, has returned. -/
def midDispatch : World :=
  callWith (dispatchWith unsubscribingBodies 0) unsubscribingBodies 10
    { exampleWorld with
      store := { exampleWorld.store with
                 state := exampleWorld.store.reducer exampleWorld.store.state
                            (addTodo 5 "a") } }

/-! ## Auxiliary notions used in the statements -/

/-- The ids of the tasks of a state, in order. -/
def State.ids (s : State) : List Nat := s.todos.map Todo.id

/-- Task ids are pairwise distinct. -/
def State.UniqueIds (s : State) : Prop := s.ids.Nodup

instance (s : State) : Decidable s.UniqueIds :=
  inferInstanceAs (Decidable s.ids.Nodup)

/-- The number of positions at which two task lists hold different records. -/
def changedCount : List Todo → List Todo → Nat
  | a :: as, b :: bs => (if a = b then 0 else 1) + changedCount as bs
  | _, _ => 0

/-- A state with three tasks of distinct ids, used to instantiate statements. -/
def exampleState : State :=
  { todos := [{ id := 1, text := "a", completed := false },
              { id := 2, text := "b", completed := true },
              { id := 3, text := "c", completed := false }],
    filter := "ALL" }

/-- A state in which two tasks share the id 1. -/
def sharedIdState : State :=
  { todos := [{ id := 1, text := "a", completed := false },
              { id := 1, text := "b", completed := false }],
    filter := "ALL" }

/-- Reduce a sequence of actions from left to right. -/
def reduceAll (s : State) (actions : List Action) : State :=
  actions.foldl todoReducer s

/-- An `ADD_TODO` action is fresh for a state when no task of the state has the
id of its payload; an action of any other type is always fresh. -/
def Action.FreshFor (s : State) : Action → Prop
  | .add payload => payload.id ∉ s.ids
  | _ => True

instance (s : State) : (a : Action) → Decidable (a.FreshFor s)
  | .add payload => inferInstanceAs (Decidable (payload.id ∉ s.ids))
  | .toggle _ => isTrue trivial
  | .delete _ => isTrue trivial
  | .edit _ _ => isTrue trivial
  | .filter _ => isTrue trivial
  | .other _ _ => isTrue trivial

/-- Every action of the sequence is fresh for the state it is reduced in. -/
def FreshAdds : State → List Action → Prop
  | _, [] => True
  | s, a :: rest => a.FreshFor s ∧ FreshAdds (todoReducer s a) rest

/-- Freshness of a sequence of actions is decidable. -/
def decFreshAdds : (s : State) → (actions : List Action) → Decidable (FreshAdds s actions)
  | _, [] => isTrue trivial
  | s, a :: rest =>
      match (inferInstance : Decidable (a.FreshFor s)), decFreshAdds (todoReducer s a) rest with
      | isTrue h1, isTrue h2 => isTrue ⟨h1, h2⟩
      | isFalse h1, _ => isFalse fun h => h1 h.1
      | _, isFalse h2 => isFalse fun h => h2 h.2

instance (s : State) (actions : List Action) : Decidable (FreshAdds s actions) :=
  decFreshAdds s actions

/-! ## Lemmas on the list operations of the reducer -/

theorem toggle_twice_todo (id : Nat) (t : Todo) :
    (fun todo : Todo =>
        if todo.id == id then { todo with completed := !todo.completed } else todo)
      ((fun todo : Todo =>
        if todo.id == id then { todo with completed := !todo.completed } else todo) t) = t := by
  by_cases h : t.id = id
  · cases t; simp_all
  · simp [h]

theorem filter_ne_eq_self (l : List Todo) (id : Nat) (h : id ∉ l.map Todo.id) :
    l.filter (fun todo => todo.id != id) = l := by
  induction l with
  | nil => rfl
  | cons t ts ih =>
    simp only [List.map_cons, List.mem_cons, not_or] at h
    have ht : (t.id != id) = true := by simpa [bne_iff_ne] using fun e => h.1 e.symm
    rw [List.filter_cons, if_pos ht, ih h.2]

theorem map_edit_eq_self (l : List Todo) (id : Nat) (text : String)
    (h : id ∉ l.map Todo.id) :
    l.map (fun todo => if todo.id == id then { todo with text := text } else todo) = l := by
  induction l with
  | nil => rfl
  | cons t ts ih =>
    simp only [List.map_cons, List.mem_cons, not_or] at h
    have ht : ¬ t.id = id := fun e => h.1 e.symm
    rw [List.map_cons, ih h.2]
    simp [ht]

theorem exists_split_of_mem_ids (l : List Todo) (id : Nat)
    (hnd : (l.map Todo.id).Nodup) (hmem : id ∈ l.map Todo.id) :
    ∃ before t after, l = before ++ t :: after ∧ t.id = id ∧
      id ∉ before.map Todo.id ∧ id ∉ after.map Todo.id := by
  obtain ⟨t, ht, rfl⟩ := List.mem_map.1 hmem
  obtain ⟨before, after, rfl⟩ := List.append_of_mem ht
  refine ⟨before, t, after, rfl, rfl, ?_, ?_⟩
  · rw [List.map_append, List.map_cons, List.nodup_middle, List.nodup_cons] at hnd
    exact fun h => hnd.1 (List.mem_append_left _ h)
  · rw [List.map_append, List.map_cons, List.nodup_middle, List.nodup_cons] at hnd
    exact fun h => hnd.1 (List.mem_append_right _ h)

theorem ids_toggle (s : State) (id : Nat) : (todoReducer s (.toggle id)).ids = s.ids := by
  simp only [State.ids, todoReducer, List.map_map]
  apply List.map_congr_left
  intro t _
  simp only [Function.comp]
  split <;> rfl

theorem ids_edit (s : State) (id : Nat) (text : String) :
    (todoReducer s (.edit id text)).ids = s.ids := by
  simp only [State.ids, todoReducer, List.map_map]
  apply List.map_congr_left
  intro t _
  simp only [Function.comp]
  split <;> rfl

theorem ids_delete (s : State) (id : Nat) :
    (todoReducer s (.delete id)).ids = s.ids.filter (fun i => i != id) := by
  simp only [State.ids, todoReducer, List.filter_map]
  rfl

theorem todoReducer_unique_of_fresh (s : State) (a : Action)
    (hs : s.UniqueIds) (hf : a.FreshFor s) : (todoReducer s a).UniqueIds := by
  unfold State.UniqueIds at hs ⊢
  cases a with
  | add payload =>
    have hf2 : payload.id ∉ s.ids := hf
    have : (todoReducer s (.add payload)).ids = s.ids ++ [payload.id] := by
      simp [State.ids, todoReducer]
    rw [this]
    exact List.Nodup.append hs (List.nodup_singleton _)
      (by
        intro i hi hp
        rw [List.mem_singleton] at hp
        exact hf2 (hp ▸ hi))
  | toggle id => rw [ids_toggle]; exact hs
  | delete id => rw [ids_delete]; exact hs.filter _
  | edit id text => rw [ids_edit]; exact hs
  | filter payload => exact hs
  | other ty h => exact hs

theorem reduceAll_unique_of_fresh (actions : List Action) :
    ∀ s : State, s.UniqueIds → FreshAdds s actions → (reduceAll s actions).UniqueIds := by
  induction actions with
  | nil => intro s hs _; exact hs
  | cons a rest ih =>
    intro s hs hf
    exact ih (todoReducer s a) (todoReducer_unique_of_fresh s a hs hf.1) hf.2

theorem changedCount_toggle (l : List Todo) (id : Nat) :
    changedCount l
        (l.map fun todo =>
          if todo.id == id then { todo with completed := !todo.completed } else todo)
      = (l.map Todo.id).count id := by
  induction l with
  | nil => rfl
  | cons t ts ih =>
    rw [List.map_cons, List.map_cons, changedCount, ih, List.count_cons]
    by_cases h : t.id = id
    · cases t; simp_all; omega
    · simp [h]

theorem changedCount_edit (l : List Todo) (id : Nat) (text : String) :
    changedCount l
        (l.map fun todo => if todo.id == id then { todo with text := text } else todo)
      ≤ (l.map Todo.id).count id := by
  induction l with
  | nil => simp [changedCount]
  | cons t ts ih =>
    rw [List.map_cons, List.map_cons, changedCount, List.count_cons]
    by_cases h : t.id = id
    · simp only [h, beq_self_eq_true, if_true]
      split <;> omega
    · simp only [beq_iff_eq, h, if_false]
      simp only [beq_iff_eq] at ih
      simpa using ih

theorem length_filter_ne_add_count (l : List Todo) (id : Nat) :
    (l.filter fun todo => todo.id != id).length + (l.map Todo.id).count id = l.length := by
  induction l with
  | nil => rfl
  | cons t ts ih =>
    rw [List.map_cons, List.count_cons, List.filter_cons]
    by_cases h : t.id = id
    · simp only [h, bne_self_eq_false, Bool.false_eq_true, if_false, beq_self_eq_true, if_true,
        List.length_cons]
      omega
    · have hb : (t.id != id) = true := by simpa [bne_iff_ne] using h
      simp only [hb, if_true, List.length_cons, beq_iff_eq, h, if_false]
      omega

theorem foldl_call (ls : List Listener) (w : World) :
    ls.foldl (fun acc listener => ReduxStore.call listener acc) w
      = { store := w.store, calls := w.calls ++ ls.map fun l => (l, w.store.state) } := by
  induction ls generalizing w with
  | nil => simp
  | cons l ls ih =>
    rw [List.foldl_cons, ih]
    simp [ReduxStore.call, ReduxStore.getState]

theorem dispatch_eq (w : World) (a : Action) :
    ReduxStore.dispatch w a
      = { store := { w.store with state := w.store.reducer w.store.state a },
          calls := w.calls ++
            w.store.listeners.map fun l => (l, w.store.reducer w.store.state a) } := by
  simp only [ReduxStore.dispatch, foldl_call]

theorem dispatchAll_listeners (actions : List Action) :
    ∀ w : World, (dispatchAll w actions).store.listeners = w.store.listeners := by
  induction actions with
  | nil => intro w; rfl
  | cons a rest ih =>
    intro w
    show (dispatchAll (ReduxStore.dispatch w a) rest).store.listeners = _
    rw [ih, dispatch_eq]

theorem calledSince_dispatch (w : World) (a : Action) :
    calledSince w.calls.length (ReduxStore.dispatch w a) = w.store.listeners := by
  simp [calledSince, dispatch_eq, List.map_map, Function.comp_def]

theorem not_mem_filter_ne (ls : List Listener) (o : Listener) :
    o ∉ ls.filter fun l => l != o := by
  simp [List.mem_filter]

theorem quiet_refl (o : Listener) (w : World) (h : o ∉ w.store.listeners) : Quiet o w w :=
  ⟨h, [], by simp, by simp⟩

theorem quiet_trans (o : Listener) (w1 w2 w3 : World)
    (h12 : Quiet o w1 w2) (h23 : Quiet o w2 w3) : Quiet o w1 w3 := by
  obtain ⟨_, e1, he1, hn1⟩ := h12
  obtain ⟨hl, e2, he2, hn2⟩ := h23
  refine ⟨hl, e1 ++ e2, by rw [he2, he1, List.append_assoc], ?_⟩
  intro c hc
  rcases List.mem_append.1 hc with h | h
  · exact hn1 c h
  · exact hn2 c h

theorem quiet_runWith (o : Listener) (nested : World → Action → World)
    (hn : ∀ w a, o ∉ w.store.listeners → Quiet o w (nested w a))
    (w : World) (op : StoreOp) (hop : op ≠ StoreOp.subscribe o)
    (hw : o ∉ w.store.listeners) : Quiet o w (StoreOp.runWith nested w op) := by
  cases op with
  | dispatch a => exact hn w a hw
  | subscribe l =>
    have hlo : o ≠ l := fun h => hop (by rw [h])
    refine ⟨?_, [], by simp [StoreOp.runWith, ReduxStore.subscribe], by simp⟩
    simp only [StoreOp.runWith, ReduxStore.subscribe, List.mem_append, List.mem_singleton]
    exact fun h => h.elim hw hlo
  | unsubscribe l =>
    refine ⟨?_, [], by simp [StoreOp.runWith, ReduxStore.subscribe], by simp⟩
    simp only [StoreOp.runWith, ReduxStore.subscribe]
    exact fun h => hw (List.mem_of_mem_filter h)

theorem quiet_foldl_runWith (o : Listener) (nested : World → Action → World)
    (hn : ∀ w a, o ∉ w.store.listeners → Quiet o w (nested w a))
    (ops : List StoreOp) :
    ∀ w : World, (∀ op ∈ ops, op ≠ StoreOp.subscribe o) → o ∉ w.store.listeners →
      Quiet o w (ops.foldl (StoreOp.runWith nested) w) := by
  induction ops with
  | nil => intro w _ hw; exact quiet_refl o w hw
  | cons op rest ih =>
    intro w hops hw
    have h1 := quiet_runWith o nested hn w op (hops op (List.mem_cons_self _ _)) hw
    have h2 := ih (StoreOp.runWith nested w op)
      (fun op2 h2 => hops op2 (List.mem_cons_of_mem _ h2)) h1.1
    exact quiet_trans o _ _ _ h1 h2

theorem quiet_callWith (o : Listener) (nested : World → Action → World)
    (hn : ∀ w a, o ∉ w.store.listeners → Quiet o w (nested w a))
    (bodies : Bodies) (hb : ∀ l st, StoreOp.subscribe o ∉ bodies l st)
    (l : Listener) (hl : l ≠ o) (w : World) (hw : o ∉ w.store.listeners) :
    Quiet o w (callWith nested bodies l w) := by
  have h1 : Quiet o w (ReduxStore.call l w) :=
    ⟨hw, [(l, w.store.getState)], rfl, by simpa using hl⟩
  have h2 := quiet_foldl_runWith o nested hn (bodies l w.store.getState)
    (ReduxStore.call l w) (fun op hop h => hb l _ (h ▸ hop)) hw
  exact quiet_trans o _ _ _ h1 h2

theorem quiet_foldl_callWith (o : Listener) (nested : World → Action → World)
    (hn : ∀ w a, o ∉ w.store.listeners → Quiet o w (nested w a))
    (bodies : Bodies) (hb : ∀ l st, StoreOp.subscribe o ∉ bodies l st)
    (ls : List Listener) :
    ∀ w : World, o ∉ ls → o ∉ w.store.listeners →
      Quiet o w (ls.foldl (fun acc listener => callWith nested bodies listener acc) w) := by
  induction ls with
  | nil => intro w _ hw; exact quiet_refl o w hw
  | cons l rest ih =>
    intro w hls hw
    have hl : l ≠ o := fun h => hls (h ▸ List.mem_cons_self _ _)
    have h1 := quiet_callWith o nested hn bodies hb l hl w hw
    have h2 := ih (callWith nested bodies l w)
      (fun h => hls (List.mem_cons_of_mem _ h)) h1.1
    exact quiet_trans o _ _ _ h1 h2

theorem quiet_dispatchWith (o : Listener) (bodies : Bodies)
    (hb : ∀ l st, StoreOp.subscribe o ∉ bodies l st) (depth : Nat) :
    ∀ (w : World) (a : Action), o ∉ w.store.listeners →
      Quiet o w (dispatchWith bodies depth w a) := by
  induction depth with
  | zero => intro w a hw; exact quiet_refl o w hw
  | succ d ih =>
    intro w a hw
    exact quiet_foldl_callWith o (dispatchWith bodies d) ih bodies hb w.store.listeners
      { w with store := { w.store with state := w.store.reducer w.store.state a } } hw hw

theorem grows_refl (w : World) : Grows w w := ⟨[], by simp⟩

theorem grows_trans (w1 w2 w3 : World) (h12 : Grows w1 w2) (h23 : Grows w2 w3) :
    Grows w1 w3 := by
  obtain ⟨e1, he1⟩ := h12
  obtain ⟨e2, he2⟩ := h23
  exact ⟨e1 ++ e2, by rw [he2, he1, List.append_assoc]⟩

theorem grows_foldl_runWith (nested : World → Action → World)
    (hn : ∀ w a, Grows w (nested w a)) (ops : List StoreOp) :
    ∀ w : World, Grows w (ops.foldl (StoreOp.runWith nested) w) := by
  induction ops with
  | nil => intro w; exact grows_refl w
  | cons op rest ih =>
    intro w
    have h1 : Grows w (StoreOp.runWith nested w op) := by
      cases op with
      | dispatch a => exact hn w a
      | subscribe l => exact ⟨[], by simp [StoreOp.runWith, ReduxStore.subscribe]⟩
      | unsubscribe l => exact ⟨[], by simp [StoreOp.runWith, ReduxStore.subscribe]⟩
    exact grows_trans _ _ _ h1 (ih _)

theorem callWith_calls (nested : World → Action → World)
    (hn : ∀ w a, Grows w (nested w a)) (bodies : Bodies) (l : Listener) (w : World) :
    ∃ extra, (callWith nested bodies l w).calls
      = w.calls ++ (l, w.store.getState) :: extra := by
  obtain ⟨e, he⟩ := grows_foldl_runWith nested hn (bodies l w.store.getState)
    (ReduxStore.call l w)
  exact ⟨e, by rw [callWith, he]; simp [ReduxStore.call]⟩

theorem foldl_callWith_calls (nested : World → Action → World)
    (hn : ∀ w a, Grows w (nested w a)) (bodies : Bodies) (ls : List Listener) :
    ∀ w : World, ∃ extra,
      (ls.foldl (fun acc listener => callWith nested bodies listener acc) w).calls
        = w.calls ++ extra ∧ ls.Sublist (extra.map Prod.fst) := by
  induction ls with
  | nil => intro w; exact ⟨[], by simp, by simp⟩
  | cons l rest ih =>
    intro w
    obtain ⟨e1, he1⟩ := callWith_calls nested hn bodies l w
    obtain ⟨e2, he2, hsub⟩ := ih (callWith nested bodies l w)
    refine ⟨(l, w.store.getState) :: e1 ++ e2, ?_, ?_⟩
    · rw [List.foldl_cons, he2, he1]; simp
    · rw [List.map_append, List.map_cons]
      exact List.Sublist.cons₂ l
        (hsub.trans (List.sublist_append_right (e1.map Prod.fst) (e2.map Prod.fst)))

theorem grows_dispatchWith (bodies : Bodies) (depth : Nat) :
    ∀ (w : World) (a : Action), Grows w (dispatchWith bodies depth w a) := by
  induction depth with
  | zero => intro w a; exact grows_refl w
  | succ d ih =>
    intro w a
    obtain ⟨e, he, _⟩ := foldl_callWith_calls (dispatchWith bodies d) ih bodies
      w.store.listeners
      { w with store := { w.store with state := w.store.reducer w.store.state a } }
    exact ⟨e, he⟩

theorem dispatchWith_calls_registered (bodies : Bodies) (depth : Nat)
    (w : World) (a : Action) :
    w.store.listeners.Sublist
      (calledSince w.calls.length (dispatchWith bodies (depth + 1) w a)) := by
  obtain ⟨e, he, hsub⟩ := foldl_callWith_calls (dispatchWith bodies depth)
    (grows_dispatchWith bodies depth) bodies w.store.listeners
    { w with store := { w.store with state := w.store.reducer w.store.state a } }
  have hcalls : (dispatchWith bodies (depth + 1) w a).calls = w.calls ++ e := he
  rw [calledSince, hcalls, List.drop_left]
  exact hsub

theorem dispatchWith_readOnly (depth : Nat) (w : World) (a : Action) :
    dispatchWith readOnlyBodies (depth + 1) w a = ReduxStore.dispatch w a := by
  rfl

/-! ## Theorems -/

/-- C10: an action whose type is none of the five action types leaves the state
unchanged: the reducer returns the state it was given, tasks and filter. -/
theorem todoReducer_unknown_action (s : State) (a : Action)
    (h : a.type ∉ knownTypes) : todoReducer s a = s := by
  cases a <;> first | rfl | (exfalso; apply h; simp [Action.type, knownTypes])

theorem todoReducer_unknown_action_witness :
    (Action.other "RESET" (by decide)).type ∉ knownTypes ∧
    todoReducer { todos := [{ id := 1, text := "a", completed := true }], filter := "ALL" }
        (Action.other "RESET" (by decide))
      = { todos := [{ id := 1, text := "a", completed := true }], filter := "ALL" } :=
  ⟨by decide, todoReducer_unknown_action _ _ (by decide)⟩

/-- C3: reducing the action built by `addTodo x`, whatever the clock reading,
appends exactly one task with that id, text `x` and `completed = false`: the
length grows by one, the old tasks are the first ones, unchanged and in order,
the new task is last, and the filter is unchanged. -/
theorem todoReducer_addTodo (s : State) (now : Nat) (x : String) :
    (todoReducer s (addTodo now x)).todos
        = s.todos ++ [{ id := now, text := x, completed := false }] ∧
    (todoReducer s (addTodo now x)).todos.length = s.todos.length + 1 ∧
    (todoReducer s (addTodo now x)).todos.take s.todos.length = s.todos ∧
    (todoReducer s (addTodo now x)).todos.getLast?
        = some { id := now, text := x, completed := false } ∧
    (todoReducer s (addTodo now x)).filter = s.filter := by
  simp [todoReducer, addTodo]

/-- C2: toggling the same id twice gives back the original state: the task with
that id has its original `completed` value, every other task, the order of the
tasks and the filter are those of the original state. -/
theorem todoReducer_toggle_twice (s : State) (id : Nat) :
    todoReducer (todoReducer s (toggleTodo id)) (toggleTodo id) = s := by
  cases s with
  | mk todos filter =>
    simp only [todoReducer, toggleTodo, List.map_map]
    congr 1
    induction todos with
    | nil => rfl
    | cons t ts ih =>
      rw [List.map_cons, ih]
      congr 1
      exact toggle_twice_todo id t

/-- C1: in a state with pairwise distinct ids, deleting an id that occurs among
the tasks gives a task list one element shorter, with no task of that id, which
is the original list with that single task taken out (the tasks before it and
after it are kept as they are, in order); the filter is unchanged. -/
theorem todoReducer_deleteTodo (s : State) (id : Nat)
    (hu : s.UniqueIds) (hmem : id ∈ s.ids) :
    (todoReducer s (deleteTodo id)).todos.length + 1 = s.todos.length ∧
    (∀ t ∈ (todoReducer s (deleteTodo id)).todos, t.id ≠ id) ∧
    (∃ before t after, s.todos = before ++ t :: after ∧ t.id = id ∧
      (todoReducer s (deleteTodo id)).todos = before ++ after) ∧
    (todoReducer s (deleteTodo id)).filter = s.filter := by
  obtain ⟨before, t, after, hsplit, htid, hb, ha⟩ :=
    exists_split_of_mem_ids s.todos id hu hmem
  have hres : (todoReducer s (deleteTodo id)).todos = before ++ after := by
    have ht : ¬ ((t.id != id) = true) := by simp [htid]
    simp only [todoReducer, deleteTodo, hsplit, List.filter_append, List.filter_cons,
      if_neg ht, filter_ne_eq_self before id hb, filter_ne_eq_self after id ha]
  refine ⟨?_, ?_, ⟨before, t, after, hsplit, htid, hres⟩, rfl⟩
  · rw [hres, hsplit]; simp only [List.length_append, List.length_cons]; omega
  · intro x hx hxid
    rw [hres, List.mem_append] at hx
    rcases hx with hx | hx
    · exact hb (List.mem_map.2 ⟨x, hx, hxid⟩)
    · exact ha (List.mem_map.2 ⟨x, hx, hxid⟩)

theorem todoReducer_deleteTodo_witness :
    exampleState.UniqueIds ∧ 2 ∈ exampleState.ids ∧
    ((todoReducer exampleState (deleteTodo 2)).todos.length + 1 = exampleState.todos.length ∧
     (∀ t ∈ (todoReducer exampleState (deleteTodo 2)).todos, t.id ≠ 2) ∧
     (∃ before t after, exampleState.todos = before ++ t :: after ∧ t.id = 2 ∧
       (todoReducer exampleState (deleteTodo 2)).todos = before ++ after) ∧
     (todoReducer exampleState (deleteTodo 2)).filter = exampleState.filter) :=
  ⟨by decide, by decide, todoReducer_deleteTodo exampleState 2 (by decide) (by decide)⟩

/-- C9: in a state with pairwise distinct ids, editing keeps the number of tasks
and their order; a task with the edited id gets the new text and keeps its id
and `completed`; every other task is unchanged; the filter is unchanged; when no
task has the id the result is the original state, and when one has it the result
is the original list with exactly that task replaced. -/
theorem todoReducer_editTodo (s : State) (id : Nat) (text : String) (hu : s.UniqueIds) :
    (todoReducer s (editTodo id text)).todos.length = s.todos.length ∧
    (todoReducer s (editTodo id text)).ids = s.ids ∧
    (∀ (i : Nat) (t : Todo), s.todos[i]? = some t →
      (todoReducer s (editTodo id text)).todos[i]?
        = some (if t.id = id then { id := t.id, text := text, completed := t.completed }
                else t)) ∧
    (todoReducer s (editTodo id text)).filter = s.filter ∧
    (id ∉ s.ids → todoReducer s (editTodo id text) = s) ∧
    (id ∈ s.ids → ∃ before t after,
      s.todos = before ++ t :: after ∧ t.id = id ∧
      id ∉ before.map Todo.id ∧ id ∉ after.map Todo.id ∧
      (todoReducer s (editTodo id text)).todos
        = before ++ { id := t.id, text := text, completed := t.completed } :: after) := by
  refine ⟨?_, ids_edit s id text, ?_, rfl, ?_, ?_⟩
  · simp [todoReducer, editTodo]
  · intro i t hi
    simp only [todoReducer, editTodo, List.getElem?_map, hi, Option.map_some', beq_iff_eq]
  · intro hno
    cases s with
    | mk todos filter =>
      simp only [todoReducer, editTodo]
      congr 1
      exact map_edit_eq_self todos id text hno
  · intro hmem
    obtain ⟨before, t, after, hsplit, htid, hb, ha⟩ :=
      exists_split_of_mem_ids s.todos id hu hmem
    refine ⟨before, t, after, hsplit, htid, hb, ha, ?_⟩
    simp only [todoReducer, editTodo, hsplit, List.map_append, List.map_cons,
      map_edit_eq_self before id text hb, map_edit_eq_self after id text ha]
    simp [htid]

theorem todoReducer_editTodo_witness :
    exampleState.UniqueIds ∧
    ((todoReducer exampleState (editTodo 2 "z")).todos.length = exampleState.todos.length ∧
     (todoReducer exampleState (editTodo 2 "z")).ids = exampleState.ids ∧
     (∀ (i : Nat) (t : Todo), exampleState.todos[i]? = some t →
       (todoReducer exampleState (editTodo 2 "z")).todos[i]?
         = some (if t.id = 2 then { id := t.id, text := "z", completed := t.completed }
                 else t)) ∧
     (todoReducer exampleState (editTodo 2 "z")).filter = exampleState.filter ∧
     (2 ∉ exampleState.ids → todoReducer exampleState (editTodo 2 "z") = exampleState) ∧
     (2 ∈ exampleState.ids → ∃ before t after,
       exampleState.todos = before ++ t :: after ∧ t.id = 2 ∧
       2 ∉ before.map Todo.id ∧ 2 ∉ after.map Todo.id ∧
       (todoReducer exampleState (editTodo 2 "z")).todos
         = before ++ { id := t.id, text := "z", completed := t.completed } :: after)) :=
  ⟨by decide, todoReducer_editTodo exampleState 2 "z" (by decide)⟩

/-- C7 as stated fails: in a state where two tasks share the id 1, toggling 1
changes two tasks, editing 1 changes two tasks and deleting 1 removes two: the
second task with the id is altered by the toggle and the edit and removed by the
delete. -/
theorem first_match_only_counterexample :
    ¬ (changedCount sharedIdState.todos
          (todoReducer sharedIdState (toggleTodo 1)).todos ≤ 1) ∧
    ¬ (changedCount sharedIdState.todos
          (todoReducer sharedIdState (editTodo 1 "c")).todos ≤ 1) ∧
    ¬ (sharedIdState.todos.length
          ≤ (todoReducer sharedIdState (deleteTodo 1)).todos.length + 1) ∧
    (todoReducer sharedIdState (toggleTodo 1)).todos[1]? ≠ sharedIdState.todos[1]? ∧
    (todoReducer sharedIdState (editTodo 1 "c")).todos[1]? ≠ sharedIdState.todos[1]? ∧
    (todoReducer sharedIdState (deleteTodo 1)).todos = [] := by
  decide

/-- C7 amended: the id-matched transitions act on every task whose id matches,
not on the first one only.  After a toggle, every position holds the original
task with `completed` flipped when its id matches and the original task
otherwise; after an edit, every position holds the original task with the new
text when its id matches and the original task otherwise; after a delete, the
remaining tasks are the original tasks of other ids, unaltered, each as often as
before and in the original order, and no task of the id remains.  So a toggle
changes exactly as many tasks as have the id, an edit at most that many, a
delete removes exactly that many, and in a state with pairwise distinct ids each
of them affects at most one task.  The filter is kept by all three. -/
theorem id_match_acts_on_all_matches (s : State) (id : Nat) (text : String) :
    ((todoReducer s (toggleTodo id)).todos.length = s.todos.length ∧
     (∀ (i : Nat) (t : Todo), s.todos[i]? = some t →
       (todoReducer s (toggleTodo id)).todos[i]?
         = some (if t.id = id
                 then { id := t.id, text := t.text, completed := !t.completed }
                 else t)) ∧
     (todoReducer s (toggleTodo id)).filter = s.filter) ∧
    ((todoReducer s (editTodo id text)).todos.length = s.todos.length ∧
     (∀ (i : Nat) (t : Todo), s.todos[i]? = some t →
       (todoReducer s (editTodo id text)).todos[i]?
         = some (if t.id = id
                 then { id := t.id, text := text, completed := t.completed }
                 else t)) ∧
     (todoReducer s (editTodo id text)).filter = s.filter) ∧
    ((todoReducer s (deleteTodo id)).todos.Sublist s.todos ∧
     (∀ t ∈ (todoReducer s (deleteTodo id)).todos, t.id ≠ id) ∧
     (∀ t : Todo, t.id ≠ id →
       (todoReducer s (deleteTodo id)).todos.count t = s.todos.count t) ∧
     (todoReducer s (deleteTodo id)).filter = s.filter) ∧
    (changedCount s.todos (todoReducer s (toggleTodo id)).todos = s.ids.count id ∧
     changedCount s.todos (todoReducer s (editTodo id text)).todos ≤ s.ids.count id ∧
     (todoReducer s (deleteTodo id)).todos.length + s.ids.count id = s.todos.length) ∧
    (s.UniqueIds →
      changedCount s.todos (todoReducer s (toggleTodo id)).todos ≤ 1 ∧
      changedCount s.todos (todoReducer s (editTodo id text)).todos ≤ 1 ∧
      s.todos.length ≤ (todoReducer s (deleteTodo id)).todos.length + 1) := by
  have h1 := changedCount_toggle s.todos id
  have h2 := changedCount_edit s.todos id text
  have h3 := length_filter_ne_add_count s.todos id
  refine ⟨⟨?_, ?_, rfl⟩, ⟨?_, ?_, rfl⟩, ⟨?_, ?_, ?_, rfl⟩, ⟨h1, h2, h3⟩, ?_⟩
  · simp [todoReducer, toggleTodo]
  · intro i t hi
    simp only [todoReducer, toggleTodo, List.getElem?_map, hi, Option.map_some', beq_iff_eq]
  · simp [todoReducer, editTodo]
  · intro i t hi
    simp only [todoReducer, editTodo, List.getElem?_map, hi, Option.map_some', beq_iff_eq]
  · exact List.filter_sublist _
  · intro t ht
    simp only [todoReducer, deleteTodo, List.mem_filter, bne_iff_ne] at ht
    exact ht.2
  · intro t ht
    show (s.todos.filter fun todo => todo.id != id).count t = _
    rw [List.count_filter]
    simpa [bne_iff_ne] using ht
  · intro hu
    have hc : s.ids.count id ≤ 1 := List.nodup_iff_count_le_one.1 hu id
    simp only [todoReducer, toggleTodo, editTodo, deleteTodo, State.ids] at *
    omega

theorem id_match_acts_on_all_matches_witness :
    exampleState.UniqueIds ∧
    changedCount exampleState.todos (todoReducer exampleState (toggleTodo 2)).todos ≤ 1 ∧
    changedCount exampleState.todos (todoReducer exampleState (editTodo 2 "z")).todos ≤ 1 ∧
    exampleState.todos.length ≤ (todoReducer exampleState (deleteTodo 2)).todos.length + 1 :=
  ⟨by decide, (id_match_acts_on_all_matches exampleState 2 "z").2.2.2.2 (by decide)⟩

/-- C8 as stated fails: from the initial state, two `addTodo` actions built at
the same clock reading give a state in which two tasks share an id, although
the state before the second action has pairwise distinct ids. -/
theorem unique_ids_counterexample :
    (todoReducer initialState (addTodo 5 "a")).UniqueIds ∧
    ¬ (todoReducer (todoReducer initialState (addTodo 5 "a")) (addTodo 5 "b")).UniqueIds ∧
    ¬ (reduceAll initialState [addTodo 5 "a", addTodo 5 "b"]).UniqueIds := by
  decide

/-- C8 amended: from a state with pairwise distinct ids, every action gives a
state with pairwise distinct ids provided that, when it is an `ADD_TODO`, the id
of its payload is not the id of a task already present; hence every state
reached from the initial state by actions whose added ids are each new at the
time has pairwise distinct ids. -/
theorem unique_ids_preserved_when_adds_fresh (s : State) (a : Action)
    (hs : s.UniqueIds) (hf : a.FreshFor s) :
    (todoReducer s a).UniqueIds ∧
    ∀ actions : List Action, FreshAdds initialState actions →
      (reduceAll initialState actions).UniqueIds :=
  ⟨todoReducer_unique_of_fresh s a hs hf,
   fun actions hfa =>
     reduceAll_unique_of_fresh actions initialState (by decide) hfa⟩

theorem unique_ids_preserved_when_adds_fresh_witness :
    exampleState.UniqueIds ∧ (addTodo 4 "d").FreshFor exampleState ∧
    ((todoReducer exampleState (addTodo 4 "d")).UniqueIds ∧
     ∀ actions : List Action, FreshAdds initialState actions →
       (reduceAll initialState actions).UniqueIds) :=
  ⟨by decide, by decide,
   unique_ids_preserved_when_adds_fresh exampleState (addTodo 4 "d") (by decide) (by decide)⟩

/-- C4: one `dispatch a` on a store built on `todoReducer` replaces the state by
`todoReducer oldState a`, keeps the listeners, and then calls each registered
listener once, in subscription order, each call seeing the new state through
`getState()`. -/
theorem dispatch_notifies_each_once (w : World) (a : Action)
    (hr : w.store.reducer = todoReducer) :
    (ReduxStore.dispatch w a).store.getState = todoReducer w.store.state a ∧
    (ReduxStore.dispatch w a).store.listeners = w.store.listeners ∧
    (ReduxStore.dispatch w a).calls
      = w.calls ++ w.store.listeners.map (fun o => (o, todoReducer w.store.state a)) ∧
    calledSince w.calls.length (ReduxStore.dispatch w a) = w.store.listeners := by
  refine ⟨?_, ?_, ?_, calledSince_dispatch w a⟩
  · rw [dispatch_eq, ← hr]; rfl
  · rw [dispatch_eq]
  · rw [dispatch_eq, ← hr]

theorem dispatch_notifies_each_once_witness :
    exampleWorld.store.reducer = todoReducer ∧
    ((ReduxStore.dispatch exampleWorld (addTodo 5 "a")).store.getState
        = todoReducer exampleWorld.store.state (addTodo 5 "a") ∧
     (ReduxStore.dispatch exampleWorld (addTodo 5 "a")).store.listeners
        = exampleWorld.store.listeners ∧
     (ReduxStore.dispatch exampleWorld (addTodo 5 "a")).calls
        = exampleWorld.calls ++ exampleWorld.store.listeners.map
            (fun o => (o, todoReducer exampleWorld.store.state (addTodo 5 "a"))) ∧
     calledSince exampleWorld.calls.length (ReduxStore.dispatch exampleWorld (addTodo 5 "a"))
        = exampleWorld.store.listeners) :=
  ⟨rfl, dispatch_notifies_each_once exampleWorld (addTodo 5 "a") rfl⟩

/-- C5 as stated fails.  With listeners 10 and 20 registered and the body of
listener 10 calling the function returned by `subscribe` for listener 20, one
dispatch first calls 10, after which 20 is no longer registered, and then goes
on to call 20 all the same.  And after that function has been called by the
client, a new `subscribe` of listener 20 makes the next dispatch call it
again. -/
theorem unsubscribe_during_dispatch_counterexample :
    exampleWorld.store.listeners = [10, 20] ∧
    midDispatch.store.listeners = [10] ∧
    calledSince exampleWorld.calls.length midDispatch = [10] ∧
    dispatchWith unsubscribingBodies 1 exampleWorld (addTodo 5 "a")
      = callWith (dispatchWith unsubscribingBodies 0) unsubscribingBodies 20 midDispatch ∧
    calledSince midDispatch.calls.length
      (dispatchWith unsubscribingBodies 1 exampleWorld (addTodo 5 "a")) = [20] ∧
    ¬ (20 ∉ calledSince midDispatch.calls.length
      (dispatchWith unsubscribingBodies 1 exampleWorld (addTodo 5 "a"))) ∧
    ¬ (20 ∉ calledSince ((ReduxStore.subscribe store 20).2 exampleWorld).calls.length
      (runOpsWith readOnlyBodies 1 ((ReduxStore.subscribe store 20).2 exampleWorld)
        [StoreOp.subscribe 20, StoreOp.dispatch (toggleTodo 5)])) :=
  ⟨by decide, by decide, by decide, rfl, by decide, by decide, by decide⟩

/-- C5 amended: let `unsubscribe` be the function returned by `subscribe o` and
let it be called on the store in any later condition.  Then `o` is called by no
dispatch that starts afterwards, for as long as `o` is not subscribed again,
whatever dispatches, subscriptions of other listeners and unsubscriptions the
client and the listener bodies make, and `o` stays unregistered.  The call
removes no registration of another listener and keeps their order.  Every
dispatch calls each listener registered when it starts, in registration order,
whatever the listener bodies do during it; and when listeners only read the
store, each later dispatch calls exactly the listeners that were registered when
`unsubscribe` was called, other than `o`, once per registration and in the
original order. -/
theorem unsubscribe_stops_later_dispatches (bodies : Bodies) (o : Listener)
    (hb : ∀ l st, StoreOp.subscribe o ∉ bodies l st)
    (w0 w : World) (ops : List StoreOp) (hops : ∀ op ∈ ops, op ≠ StoreOp.subscribe o)
    (depth : Nat) (w2 : World) (earlier : List Action) (a : Action) :
    o ∉ calledSince ((ReduxStore.subscribe w0 o).2 w).calls.length
        (runOpsWith bodies depth ((ReduxStore.subscribe w0 o).2 w) ops) ∧
    o ∉ (runOpsWith bodies depth ((ReduxStore.subscribe w0 o).2 w) ops).store.listeners ∧
    ((ReduxStore.subscribe w0 o).2 w).store.listeners.Sublist w.store.listeners ∧
    (∀ l, l ≠ o →
      ((ReduxStore.subscribe w0 o).2 w).store.listeners.count l
        = w.store.listeners.count l) ∧
    w2.store.listeners.Sublist
      (calledSince w2.calls.length (dispatchWith bodies (depth + 1) w2 a)) ∧
    calledSince (dispatchAll ((ReduxStore.subscribe w0 o).2 w) earlier).calls.length
        (dispatchWith readOnlyBodies (depth + 1)
          (dispatchAll ((ReduxStore.subscribe w0 o).2 w) earlier) a)
      = w.store.listeners.filter (fun l => l != o) := by
  have hq : Quiet o ((ReduxStore.subscribe w0 o).2 w)
      (runOpsWith bodies depth ((ReduxStore.subscribe w0 o).2 w) ops) :=
    quiet_foldl_runWith o (dispatchWith bodies depth) (quiet_dispatchWith o bodies hb depth)
      ops ((ReduxStore.subscribe w0 o).2 w) hops (not_mem_filter_ne w.store.listeners o)
  refine ⟨?_, hq.1, List.filter_sublist _, ?_, dispatchWith_calls_registered bodies depth w2 a,
    ?_⟩
  · obtain ⟨_, extra, hcalls, hne⟩ := hq
    rw [calledSince, hcalls, List.drop_left]
    intro h
    obtain ⟨c, hc, hco⟩ := List.mem_map.1 h
    exact hne c hc hco
  · intro l hl
    show (w.store.listeners.filter fun l => l != o).count l = _
    rw [List.count_filter]
    simpa [bne_iff_ne] using hl
  · rw [dispatchWith_readOnly, calledSince_dispatch, dispatchAll_listeners]
    rfl

theorem unsubscribe_stops_later_dispatches_witness :
    (∀ l st, StoreOp.subscribe 20 ∉ unsubscribingBodies l st) ∧
    (∀ op ∈ [StoreOp.dispatch (addTodo 5 "a"), StoreOp.subscribe 30, StoreOp.unsubscribe 10,
              StoreOp.dispatch (toggleTodo 5)], op ≠ StoreOp.subscribe 20) ∧
    20 ∉ calledSince ((ReduxStore.subscribe store 20).2 exampleWorld).calls.length
        (runOpsWith unsubscribingBodies 3 ((ReduxStore.subscribe store 20).2 exampleWorld)
          [StoreOp.dispatch (addTodo 5 "a"), StoreOp.subscribe 30, StoreOp.unsubscribe 10,
           StoreOp.dispatch (toggleTodo 5)]) ∧
    exampleWorld.store.listeners.Sublist
      (calledSince exampleWorld.calls.length
        (dispatchWith unsubscribingBodies (3 + 1) exampleWorld (addTodo 5 "a"))) ∧
    calledSince
        (dispatchAll ((ReduxStore.subscribe store 20).2 exampleWorld) [addTodo 5 "a"]).calls.length
        (dispatchWith readOnlyBodies (3 + 1)
          (dispatchAll ((ReduxStore.subscribe store 20).2 exampleWorld) [addTodo 5 "a"])
          (toggleTodo 5))
      = exampleWorld.store.listeners.filter (fun l => l != 20) :=
  have hb : ∀ l st, StoreOp.subscribe 20 ∉ unsubscribingBodies l st := by
    intro l st
    unfold unsubscribingBodies
    split <;> simp
  have hops : ∀ op ∈ [StoreOp.dispatch (addTodo 5 "a"), StoreOp.subscribe 30,
      StoreOp.unsubscribe 10, StoreOp.dispatch (toggleTodo 5)], op ≠ StoreOp.subscribe 20 := by
    intro op hop
    simp only [List.mem_cons, List.mem_singleton, List.not_mem_nil, or_false] at hop
    rcases hop with rfl | rfl | rfl | rfl <;> simp
  have h := unsubscribe_stops_later_dispatches unsubscribingBodies 20 hb store exampleWorld _
    hops 3 exampleWorld [addTodo 5 "a"] (toggleTodo 5)
  ⟨hb, hops, h.1, h.2.2.2.2.1, h.2.2.2.2.2⟩

/-- C6 as stated fails: with listener 7 subscribed twice, one dispatch calls it
twice, but after the function returned by one of the two `subscribe` calls has
run, listener 7 is registered zero times, not once, and the next dispatch calls
it zero times, not once. -/
theorem one_registration_removed_counterexample :
    twiceSubscribed.store.listeners.count 7 = 2 ∧
    (calledSince twiceSubscribed.calls.length
      (ReduxStore.dispatch twiceSubscribed (toggleTodo 1))).count 7 = 2 ∧
    ¬ ((secondUnsubscribe twiceSubscribed).store.listeners.count 7 = 2 - 1) ∧
    ¬ ((calledSince (secondUnsubscribe twiceSubscribed).calls.length
      (ReduxStore.dispatch (secondUnsubscribe twiceSubscribed) (toggleTodo 1))).count 7
        = 2 - 1) := by
  decide

/-- C6 amended: each `subscribe o` adds one registration of `o` at the end, and
one dispatch calls `o` once per registration; the function returned by any
`subscribe o` removes every registration of `o`, so that `o` is then registered
zero times and the next dispatch calls it zero times, while the registrations of
every other listener are kept. -/
theorem unsubscribe_removes_every_registration (w0 w : World) (o : Listener) (a : Action) :
    (ReduxStore.subscribe w o).1.store.listeners = w.store.listeners ++ [o] ∧
    (ReduxStore.subscribe w o).1.store.listeners.count o = w.store.listeners.count o + 1 ∧
    (calledSince w.calls.length (ReduxStore.dispatch w a)).count o
      = w.store.listeners.count o ∧
    ((ReduxStore.subscribe w0 o).2 w).store.listeners.count o = 0 ∧
    (calledSince ((ReduxStore.subscribe w0 o).2 w).calls.length
      (ReduxStore.dispatch ((ReduxStore.subscribe w0 o).2 w) a)).count o = 0 ∧
    (∀ l, l ≠ o →
      ((ReduxStore.subscribe w0 o).2 w).store.listeners.count l
        = w.store.listeners.count l) := by
  have hzero : ((ReduxStore.subscribe w0 o).2 w).store.listeners.count o = 0 :=
    List.count_eq_zero.2 (not_mem_filter_ne w.store.listeners o)
  refine ⟨rfl, ?_, ?_, hzero, ?_, ?_⟩
  · simp [ReduxStore.subscribe]
  · rw [calledSince_dispatch]
  · rw [calledSince_dispatch]; exact hzero
  · intro l hl
    show (w.store.listeners.filter fun l => l != o).count l = _
    rw [List.count_filter]
    simpa [bne_iff_ne] using hl

theorem unsubscribe_removes_every_registration_witness :
    (secondUnsubscribe twiceSubscribed).store.listeners.count 7 = 0 :=
  (unsubscribe_removes_every_registration (ReduxStore.subscribe store 7).1 twiceSubscribed 7
    (toggleTodo 1)).2.2.2.1

end TodoRedux
